import Mathlib

/-!
Verification development for the dvid datastore versioning core
(`datastore/dataset.go` and `datastore/versioning.go`).

The Go code is embedded shallowly:

* Go maps (`map[UUID]*Node`, `map[UUID]dvid.LocalID`, ...) become association
  lists `List (κ × α)` with Go's assignment semantics: `ainsert` replaces the
  value in place when the key is present and appends otherwise, `alookup` is
  `m[k]`.  List order determinizes Go's unspecified map-iteration order.
* Pointer-mutating methods become pure state transformers returning the pair
  `(result, new state)`, with every early `return` of the Go code reproduced
  as a branch that carries exactly the mutations performed so far.
* `*Dataset` pointers stored both in the `Datasets.Datasets` slice and in the
  `versionMap` index are modelled by the dataset's position in the slice, so
  aliasing is preserved.
* The random generator behind `NewUUID()` and the wall clock behind
  `time.Now()` become explicit oracle arguments (`u : UUID`, `t : Nat`);
  freshness of a minted UUID is a hypothesis where a property needs it.
* External collaborators that live outside the two source files (the `dvid`
  serialization codec, the type registry) are modelled from the spec; each
  such definition carries a doc comment starting with `Modelled from the
  spec:`.
-/

namespace Dvid

/-- UUID is a 32-character hexadecimal string in the Go source (`type UUID string`). -/
abbrev UUID := String

/-- DataString names a data instance inside a Dataset (`type DataString string`). -/
abbrev DataString := String

/-- Configuration passed through to a data-type constructor (`dvid.Config`);
its contents are never inspected by the code under verification. -/
abbrev Config := List (String × String)

/-- Go's `strings.HasPrefix(s, pre)` on UTF-8 strings, as a character-list test. -/
def hasPrefixGo (s pre : String) : Bool :=
  List.isPrefixOf pre.data s.data

/-- Association-list lookup, i.e. the Go map read `m[k]`. -/
def alookup {κ α : Type} [DecidableEq κ] : List (κ × α) → κ → Option α
  | [], _ => none
  | p :: ps, k => if p.1 = k then some p.2 else alookup ps k

/-- Association-list write, i.e. the Go map assignment `m[k] = v`: replaces in
place when the key is present, appends otherwise. -/
def ainsert {κ α : Type} [DecidableEq κ] : List (κ × α) → κ → α → List (κ × α)
  | [], k, v => [(k, v)]
  | p :: ps, k, v => if p.1 = k then (k, v) :: ps else p :: ainsert ps k v

/-- Typed failures: one constructor per `fmt.Errorf` site of the embedded code,
named by the error kind the spec gives it. -/
inductive DvidError where
  | notFound (u : UUID)
  | notLocked (u : UUID)
  | alreadyExists (name : DataString)
  | unknownType (typeName : String)
  | dataCreateFailed
  | ambiguous (str : String)
  | noMatch (str : String)
  | deserializeFailed
  | backendFailed
deriving DecidableEq

/-- `DataAvail` classification of data availability at a node. -/
inductive DataAvail where
  | DataComplete
  | DataDelta
  | DataRoot
  | DataDeleted
deriving DecidableEq

/-- `NodeVersion`: parents, children, lock state and timestamps of one DAG node. -/
structure NodeVersion where
  GlobalID : UUID
  VersionID : Nat
  Locked : Bool
  Parents : List UUID
  Children : List UUID
  Created : Nat
  Updated : Nat
deriving DecidableEq

/-- `NodeText`: note and provenance of a node. -/
structure NodeText where
  Note : String
  Provenance : String
deriving DecidableEq

/-- `Node` composes `*NodeVersion` and `*NodeText` with the availability map;
the embedded `*NodeText` is `none` for nodes created by this code. -/
structure Node where
  version : NodeVersion
  text : Option NodeText
  Avail : List (DataString × DataAvail)
deriving DecidableEq

/-- `VersionDAG` of `dataset.go`: root UUID, node map, UUID-to-local-id map and
the two counters. -/
structure VersionDAG where
  Root : UUID
  Nodes : List (UUID × Node)
  VersionMap : List (UUID × Nat)
  NewVersionID : Nat
  NewDataID : Nat
deriving DecidableEq

/-- `NewVersionDAG()`: mints the root (oracle argument `root`), registers it in
`Nodes` and `VersionMap` with local id 0 and sets `NewVersionID` to 1. -/
def NewVersionDAG (root : UUID) (t : Nat) : VersionDAG :=
  let version : NodeVersion :=
    { GlobalID := root, VersionID := 0, Locked := false
      Parents := [], Children := [], Created := t, Updated := t }
  { Root := root
    Nodes := ainsert [] root { version := version, text := none, Avail := [] }
    VersionMap := ainsert [] root 0
    NewVersionID := 1
    NewDataID := 0 }

/-- Setting `node.Locked = true` through the node pointer. -/
def lockNode (node : Node) : Node :=
  { node with version := { node.version with Locked := true } }

/-- The in-place mutation `node.Children = append(node.Children, u);
node.Updated = t` performed on the parent under its write lock. -/
def nodeAppendChild (node : Node) (u : UUID) (t : Nat) : Node :=
  { node with version :=
    { node.version with Children := node.version.Children ++ [u], Updated := t } }

/-- The child `&Node{NodeVersion: version}` built by `newChild`: note the
source records the child's own UUID `u` — not the parent — in `Parents`. -/
def freshChildNode (u : UUID) (vid : Nat) (t : Nat) : Node :=
  { version :=
    { GlobalID := u, VersionID := vid, Locked := false
      Parents := [u], Children := [], Created := t, Updated := t }
    text := none, Avail := [] }

/-- `VersionDAG.Lock(u)`: marks the node as locked, `NotFound` if absent. -/
def VersionDAG.Lock (dag : VersionDAG) (u : UUID) : Except DvidError Unit × VersionDAG :=
  match alookup dag.Nodes u with
  | none => (.error (.notFound u), dag)
  | some node =>
    (.ok (), { dag with Nodes := ainsert dag.Nodes u (lockNode node) })

/-- `VersionDAG.newChild(parent)`: fails with `NotFound` for an unknown parent
and with `NotLocked` for an unlocked one; otherwise mints `u` (oracle
argument), appends `u` to the parent's children, updates the parent's
timestamp, registers the child node (with `Parents = []UUID{u}` and
`VersionID = NewVersionID`, exactly as the source does) and increments
`NewVersionID`. -/
def VersionDAG.newChild (dag : VersionDAG) (parent : UUID) (u : UUID) (t : Nat) :
    Except DvidError UUID × VersionDAG :=
  match alookup dag.Nodes parent with
  | none => (.error (.notFound parent), dag)
  | some node =>
    if !node.version.Locked then
      (.error (.notLocked parent), dag)
    else
      (.ok u,
        { dag with
            Nodes := ainsert (ainsert dag.Nodes parent (nodeAppendChild node u t)) u
              (freshChildNode u dag.NewVersionID t)
            NewVersionID := dag.NewVersionID + 1 })

/-- `VersionDAG.Versions()`: the UUIDs known to the DAG, in map order. -/
def VersionDAG.Versions (dag : VersionDAG) : List UUID :=
  dag.Nodes.map (fun p => p.1)

/-- Modelled from the spec: `dvid.KeyDataStart`, the first allocatable local
data id (the `dvid` package is outside the two embedded source files). -/
def KeyDataStart : Nat := 1

/-- `DataID` handed to a data-type constructor: the data name, the local data
id and the dataset id. -/
structure DataID where
  name : DataString
  id : Nat
  dset : Nat
deriving DecidableEq

/-- Modelled from the spec: the handle a data-type constructor returns; it
records the `DataID` it was constructed with and its data-type URL. -/
structure DataService where
  dataID : DataID
  url : String
deriving DecidableEq

/-- Modelled from the spec: a registered data type (`TypeService`); its
constructor takes a `DataID` and a config and may fail. -/
structure TypeService where
  NewDataService : DataID → Config → Option DataService

/-- `Dataset`: an embedded `*VersionDAG` (field `dag`), an alias, the
server-local dataset id, and the unexported name map (nil after a load). -/
structure Dataset where
  dag : VersionDAG
  Alias : String
  DatasetID : Nat
  nameMap : List (DataString × DataService)
deriving DecidableEq

/-- `Dataset.Versions()` by method promotion from the embedded DAG. -/
def Dataset.Versions (dset : Dataset) : List UUID :=
  dset.dag.Versions

/-- `Dataset.NewData(name, typeName, config)`: rejects a duplicate name,
resolves the type name against the (spec-modelled, oracle) type registry
`tsByName`, builds a `DataID` from the current `NewDataID` counter, asks the
type to construct the data service and stores it under `name`.  The source
never increments `NewDataID`. -/
def Dataset.NewData (dset : Dataset) (tsByName : String → Option TypeService)
    (name : DataString) (typeName : String) (config : Config) :
    Except DvidError Unit × Dataset :=
  match alookup dset.nameMap name with
  | some _ => (.error (.alreadyExists name), dset)
  | none =>
    match tsByName typeName with
    | none => (.error (.unknownType typeName), dset)
    | some typeService =>
      let dataID : DataID := { name := name, id := dset.dag.NewDataID, dset := dset.DatasetID }
      match typeService.NewDataService dataID config with
      | none => (.error .dataCreateFailed, dset)
      | some dataservice =>
        (.ok (), { dset with nameMap := ainsert dset.nameMap name dataservice })

/-- `Datasets`: the registry.  The `versionMap` index stores the position of
the owning `*Dataset` in the `Datasets` slice (pointer identity). -/
structure Datasets where
  Datasets : List Dataset
  NewDatasetID : Nat
  versionMap : List (UUID × Nat)
deriving DecidableEq

/-- `Datasets.newDataset()`: creates a Dataset around a fresh version DAG
(root UUID and clock are oracle arguments), sets `NewDataID` to
`dvid.KeyDataStart`, appends it to the slice, bumps `NewDatasetID` and indexes
the root UUID.  The Go function's error result is always nil. -/
def Datasets.newDataset (dsets : Dvid.Datasets) (root : UUID) (t : Nat) : Dataset × Dvid.Datasets :=
  let dset : Dataset :=
    { dag := { NewVersionDAG root t with NewDataID := KeyDataStart }
      Alias := "", DatasetID := dsets.NewDatasetID, nameMap := [] }
  (dset,
    { Datasets := dsets.Datasets ++ [dset]
      NewDatasetID := dsets.NewDatasetID + 1
      versionMap := ainsert dsets.versionMap root dsets.Datasets.length })

/-- `Datasets.newChild(parent)`: resolves the owning Dataset through the
`versionMap` index, delegates to the DAG's `newChild`, writes the (possibly
mutated) DAG back through the shared pointer and, on success, indexes the new
UUID.  The impossible dangling-index case returns `NotFound`. -/
def Datasets.newChild (dsets : Dvid.Datasets) (parent : UUID) (u : UUID) (t : Nat) :
    Except DvidError UUID × Dvid.Datasets :=
  match alookup dsets.versionMap parent with
  | none => (.error (.notFound parent), dsets)
  | some idx =>
    match dsets.Datasets[idx]? with
    | none => (.error (.notFound parent), dsets)
    | some dset =>
      let r := dset.dag.newChild parent u t
      let dsets1 := { dsets with Datasets := dsets.Datasets.set idx { dset with dag := r.2 } }
      match r.1 with
      | .error e => (.error e, dsets1)
      | .ok u1 => (.ok u1, { dsets1 with versionMap := ainsert dsets1.versionMap u1 idx })

/-- Modelled from the spec: the wire format of the `dvid` serialization codec
(Snappy compression plus CRC32 checksum; outside the embedded files).  A
`valid` blob carries exactly the exported fields of `Datasets` — the dataset
slice (whose unexported `nameMap` fields do not survive) and `NewDatasetID`;
`corrupt` stands for malformed bytes or a checksum mismatch. -/
inductive Bytes where
  | valid (datasets : List Dataset) (newDatasetID : Nat)
  | corrupt
deriving DecidableEq

/-- Exported-field projection of a `Dataset` as the codec sees it: the
unexported `nameMap` is dropped (nil after decoding). -/
def persistDataset (dset : Dataset) : Dataset :=
  { dset with nameMap := [] }

/-- Modelled from the spec: `dvid.Serialize(dsets, Snappy, CRC32)` encodes the
exported fields and never fails for this value. -/
def dvidSerialize (dsets : Dvid.Datasets) : Bytes :=
  .valid (dsets.Datasets.map persistDataset) dsets.NewDatasetID

/-- Modelled from the spec: `dvid.Deserialize(s, dsets)` fails closed on a
checksum mismatch (leaving the destination untouched) and otherwise overwrites
the destination's exported fields with the decoded ones. -/
def dvidDeserialize (s : Bytes) (dsets : Dvid.Datasets) : Except Unit Dvid.Datasets :=
  match s with
  | .corrupt => .error ()
  | .valid datasets newDatasetID =>
    .ok { dsets with Datasets := datasets, NewDatasetID := newDatasetID }

/-- `Datasets.Serialize()` delegates to the codec. -/
def Datasets.Serialize (dsets : Dvid.Datasets) : Except DvidError Bytes :=
  .ok (dvidSerialize dsets)

/-- `addVersions` is the inner loop of the index rebuild: indexes every listed
UUID to the dataset at slice position `i`. -/
def addVersions (vm : List (UUID × Nat)) (i : Nat) (us : List UUID) : List (UUID × Nat) :=
  us.foldl (fun vm u => ainsert vm u i) vm

/-- `rebuildFrom` walks the dataset slice from position `i`, indexing every
dataset's versions. -/
def rebuildFrom (vm : List (UUID × Nat)) (i : Nat) : List Dataset → List (UUID × Nat)
  | [] => vm
  | dset :: rest => rebuildFrom (addVersions vm i dset.Versions) (i + 1) rest

/-- `Datasets.Deserialize(s)`: first resets `dsets.Datasets` to the empty
slice, then decodes (early-returning the cleared state on failure), then
rebuilds `versionMap` from every Dataset's `Versions()`. -/
def Datasets.Deserialize (dsets : Dvid.Datasets) (s : Bytes) : Except DvidError Unit × Dvid.Datasets :=
  let dsets1 := { dsets with Datasets := ([] : List Dataset) }
  match dvidDeserialize s dsets1 with
  | .error _ => (.error .deserializeFailed, dsets1)
  | .ok dsets2 => (.ok (), { dsets2 with versionMap := rebuildFrom [] 0 dsets2.Datasets })

/-- `Datasets.Get(db)`: reads the well-known key from the backend (modelled as
the oracle value `db`) and deserializes; a backend failure early-returns with
no mutation. -/
def Datasets.Get (dsets : Dvid.Datasets) (db : Except DvidError Bytes) :
    Except DvidError Unit × Dvid.Datasets :=
  match db with
  | .error e => (.error e, dsets)
  | .ok data => dsets.Deserialize data

/-- `Datasets.DatasetFromString(str)`: scans the `versionMap` index counting
the UUIDs that have `str` as a string-form front part, remembering the last
match in the named return values `dataset` and `u`; more than one match yields
the Ambiguous error, zero matches the NotFound error, and in both error cases
the remembered values are returned as they stand. -/
def Datasets.DatasetFromString (dsets : Dvid.Datasets) (str : String) :
    Option Nat × UUID × Option DvidError :=
  let r := dsets.versionMap.foldl
    (fun acc p => if hasPrefixGo p.1 str then (acc.1 + 1, some p.2, p.1) else acc)
    ((0 : Nat), (none : Option Nat), ("" : UUID))
  if r.1 > 1 then (r.2.1, r.2.2, some (.ambiguous str))
  else if r.1 = 0 then (r.2.1, r.2.2, some (.noMatch str))
  else (r.2.1, r.2.2, none)

end Dvid

namespace Versioning

open Dvid (UUID DvidError hasPrefixGo)

/-- `VersionId` of `versioning.go` (`type VersionId int16`); no arithmetic is
performed on it by the embedded operation. -/
abbrev VersionId := Int

/-- `VersionNode` of `versioning.go`: the flat historical node schema. -/
structure VersionNode where
  Id : UUID
  Index : VersionId
  Locked : Bool
  Parents : List UUID
  Children : List UUID
  Note : String
  Provenance : String
  Created : Nat
  Updated : Nat
deriving DecidableEq

/-- `VersionDAG` of `versioning.go`: head UUID, node slice and UUID index. -/
structure VersionDAG where
  Head : UUID
  Nodes : List VersionNode
  VersionMap : List (UUID × VersionId)
deriving DecidableEq

/-- `NewVersionDAG()` of `versioning.go` (root UUID and clock as oracles). -/
def NewVersionDAG (head : UUID) (t : Nat) : VersionDAG :=
  { Head := head
    Nodes := [{ Id := head, Index := 0, Locked := false, Parents := [], Children := []
                Note := "", Provenance := "", Created := t, Updated := t }]
    VersionMap := [(head, 0)] }

/-- `VersionDAG.VersionIdFromString(str)`: counts the UUIDs of `VersionMap`
whose string form starts with `str`, remembering the id of the last match;
more than one match yields the Ambiguous error, zero the NotFound error (in
both cases the returned id is the zero value 0), and a unique match returns
its id with no error. -/
def VersionDAG.VersionIdFromString (dag : VersionDAG) (str : String) :
    VersionId × Option DvidError :=
  let r := dag.VersionMap.foldl
    (fun acc p => if hasPrefixGo p.1 str then (acc.1 + 1, p.2) else acc)
    ((0 : Nat), (0 : VersionId))
  if r.1 > 1 then (0, some (.ambiguous str))
  else if r.1 = 0 then (0, some (.noMatch str))
  else (r.2, none)

end Versioning

namespace Dvid

theorem alookup_ainsert {κ α : Type} [DecidableEq κ] (m : List (κ × α)) (k u : κ) (v : α) :
    alookup (ainsert m k v) u = if k = u then some v else alookup m u := by
  induction m with
  | nil => simp [ainsert, alookup]
  | cons p ps ih =>
    by_cases hpk : p.1 = k
    · subst hpk
      by_cases hpu : p.1 = u <;> simp [ainsert, alookup, hpu]
    · by_cases hpu : p.1 = u
      · have hku : ¬ k = u := fun h => hpk (hpu.trans h.symm)
        have huk : ¬ u = k := fun h => hku h.symm
        simp [ainsert, alookup, hpk, hpu, hku, huk]
      · simp [ainsert, alookup, hpk, hpu, ih]

theorem ainsert_append_of_none {κ α : Type} [DecidableEq κ] (m : List (κ × α)) (k : κ) (v : α)
    (h : alookup m k = none) : ainsert m k v = m ++ [(k, v)] := by
  induction m with
  | nil => simp [ainsert]
  | cons p ps ih =>
    by_cases hpk : p.1 = k
    · simp [alookup, hpk] at h
    · simp only [alookup, if_neg hpk] at h
      simp [ainsert, if_neg hpk, ih h]

theorem map_ainsert_of_some {κ α β : Type} [DecidableEq κ] (m : List (κ × α)) (k : κ)
    (v w : α) (f : α → β) (h : alookup m k = some w) (hf : f v = f w) :
    (ainsert m k v).map (fun p => f p.2) = m.map (fun p => f p.2) := by
  induction m with
  | nil => simp [alookup] at h
  | cons p ps ih =>
    by_cases hpk : p.1 = k
    · simp only [alookup, if_pos hpk] at h
      have h2 : p.2 = w := by injection h
      simp [ainsert, if_pos hpk, hf, h2]
    · simp only [alookup, if_neg hpk] at h
      simp [ainsert, if_neg hpk, ih h]

theorem list_set_self {α : Type} (l : List α) (i : Nat) (x : α) (h : l[i]? = some x) :
    l.set i x = l := by
  induction l generalizing i with
  | nil => simp at h
  | cons a as ih =>
    cases i with
    | zero => simp at h; simp [h]
    | succ j => simp at h; simp [List.set, ih j h]

/-- List of local version ids of a node map, in map (= creation) order. -/
def nodeIds (nodes : List (UUID × Node)) : List Nat :=
  nodes.map (fun p => p.2.version.VersionID)

/-- DAGs reachable by `NewVersionDAG` followed by any sequence of `Lock` and
`newChild` calls (successful or failed); minted UUIDs are fresh, as the random
generator guarantees. -/
inductive DAGReach : VersionDAG → Prop where
  | base (root : UUID) (t : Nat) : DAGReach (NewVersionDAG root t)
  | lock (dag : VersionDAG) (u : UUID) : DAGReach dag → DAGReach (dag.Lock u).2
  | child (dag : VersionDAG) (parent u : UUID) (t : Nat) :
      DAGReach dag → alookup dag.Nodes u = none → DAGReach (dag.newChild parent u t).2

theorem dagReach_ids {dag : VersionDAG} (h : DAGReach dag) :
    nodeIds dag.Nodes = List.range dag.NewVersionID := by
  induction h with
  | base root t =>
    simp [NewVersionDAG, nodeIds, ainsert, List.range_succ, List.range_zero]
  | lock dag u hr ih =>
    cases hl : alookup dag.Nodes u with
    | none => simpa [VersionDAG.Lock, hl] using ih
    | some node =>
      simp only [VersionDAG.Lock, hl]
      exact (map_ainsert_of_some dag.Nodes u (lockNode node) node
        (fun nd => nd.version.VersionID) hl rfl).trans ih
  | child dag parent u t hr hfresh ih =>
    cases hl : alookup dag.Nodes parent with
    | none => simpa [VersionDAG.newChild, hl] using ih
    | some node =>
      cases hb : node.version.Locked with
      | false => simpa [VersionDAG.newChild, hl, hb] using ih
      | true =>
        have hpu : ¬ parent = u := by
          intro h
          rw [h, hfresh] at hl
          cases hl
        have hfresh1 :
            alookup (ainsert dag.Nodes parent (nodeAppendChild node u t)) u = none := by
          rw [alookup_ainsert, if_neg hpu]
          exact hfresh
        simp only [VersionDAG.newChild, hl, hb, Bool.not_true, Bool.false_eq_true,
          if_false]
        unfold nodeIds
        rw [ainsert_append_of_none _ _ _ hfresh1, List.map_append]
        have h1 : List.map (fun p => p.2.version.VersionID)
            (ainsert dag.Nodes parent (nodeAppendChild node u t)) =
            List.range dag.NewVersionID :=
          (map_ainsert_of_some dag.Nodes parent (nodeAppendChild node u t) node
            (fun nd => nd.version.VersionID) hl rfl).trans ih
        rw [h1, List.range_succ]
        rfl

/-- The candidates of an index whose string form starts with `str`. -/
def matching {α : Type} (vm : List (UUID × α)) (str : String) : List (UUID × α) :=
  vm.filter (fun p => hasPrefixGo p.1 str)

theorem getLast?_cons_of_ne_nil {α : Type} (a : α) (l : List α) (h : l ≠ []) :
    (a :: l).getLast? = l.getLast? := by
  cases l with
  | nil => cases h rfl
  | cons b bs => exact List.getLast?_cons_cons

/-- Characterization of the match-counting loops: the final accumulator holds
the starting count plus the number of matches, and the payload of the last
match (or the starting payload when nothing matches). -/
theorem foldl_count_last {α β : Type} (pred : UUID × α → Bool) (g : UUID × α → β)
    (vm : List (UUID × α)) :
    ∀ (n : Nat) (b : β),
      vm.foldl (fun acc p => if pred p then (acc.1 + 1, g p) else acc) (n, b) =
        (n + (vm.filter pred).length,
          match (vm.filter pred).getLast? with
          | none => b
          | some q => g q) := by
  induction vm with
  | nil => intro n b; simp
  | cons p ps ih =>
    intro n b
    by_cases hp : pred p
    · simp only [List.foldl_cons, if_pos hp]
      rw [ih]
      have hfc : (p :: ps).filter pred = p :: ps.filter pred := by
        simp [List.filter_cons, hp]
      rw [hfc]
      cases hfl : (ps.filter pred).getLast? with
      | none =>
        have h0 : ps.filter pred = [] := List.getLast?_eq_none_iff.mp hfl
        rw [h0]
        simp
      | some q =>
        have hne : ps.filter pred ≠ [] := by
          intro h
          rw [h] at hfl
          cases hfl
        rw [getLast?_cons_of_ne_nil p _ hne, hfl]
        simp only [Prod.mk.injEq, List.length_cons]
        exact ⟨by omega, trivial⟩
    · simp only [List.foldl_cons, if_neg hp]
      rw [ih]
      have hfc : (p :: ps).filter pred = ps.filter pred := by
        simp [List.filter_cons, hp]
      rw [hfc]

theorem alookup_addVersions (vm : List (UUID × Nat)) (i : Nat) (us : List UUID) (u : UUID) :
    alookup (addVersions vm i us) u = if u ∈ us then some i else alookup vm u := by
  induction us generalizing vm with
  | nil => simp [addVersions]
  | cons v vs ih =>
    have hstep : addVersions vm i (v :: vs) = addVersions (ainsert vm v i) i vs := rfl
    rw [hstep, ih]
    by_cases hmem : u ∈ vs
    · simp [hmem]
    · rw [alookup_ainsert]
      by_cases hvu : v = u
      · simp [hmem, hvu, List.mem_cons]
      · have huv : ¬ u = v := fun h => hvu h.symm
        simp [hmem, hvu, huv, List.mem_cons]

theorem rebuildFrom_skip (ds : List Dataset) (vm : List (UUID × Nat)) (i : Nat) (u : UUID)
    (h : ∀ d ∈ ds, u ∉ d.Versions) :
    alookup (rebuildFrom vm i ds) u = alookup vm u := by
  induction ds generalizing vm i with
  | nil => rfl
  | cons d rest ih =>
    have hstep : rebuildFrom vm i (d :: rest) = rebuildFrom (addVersions vm i d.Versions) (i + 1) rest := rfl
    rw [hstep, ih _ _ (fun x hx => h x (List.mem_cons_of_mem _ hx)), alookup_addVersions]
    simp [h d (List.mem_cons_self _ _)]

theorem rebuildFrom_owner (ds : List Dataset) (vm : List (UUID × Nat)) (i0 : Nat)
    (hdisj : ds.Pairwise (fun a b => ∀ u, u ∈ a.Versions → u ∉ b.Versions)) :
    ∀ (j : Nat) (d : Dataset), ds[j]? = some d → ∀ u ∈ d.Versions,
      alookup (rebuildFrom vm i0 ds) u = some (i0 + j) := by
  revert hdisj
  induction ds generalizing vm i0 with
  | nil =>
    intro _ j d h
    simp at h
  | cons d0 rest ih =>
    intro hdisj j d hj u hu
    have hpc := List.pairwise_cons.mp hdisj
    have hstep : rebuildFrom vm i0 (d0 :: rest) =
        rebuildFrom (addVersions vm i0 d0.Versions) (i0 + 1) rest := rfl
    cases j with
    | zero =>
      simp only [List.getElem?_cons_zero, Option.some.injEq] at hj
      subst hj
      have hnot : ∀ dr ∈ rest, u ∉ dr.Versions := fun dr hdr => hpc.1 dr hdr u hu
      rw [hstep, rebuildFrom_skip rest _ _ _ hnot, alookup_addVersions]
      simp [hu]
    | succ j1 =>
      simp only [List.getElem?_cons_succ] at hj
      rw [hstep, ih _ _ hpc.2 j1 d hj u hu]
      congr 1
      omega

/-- Concrete scenario shared by several claims: a fresh DAG whose root is the
UUID 1111 created at time 0. -/
def exDAG0 : VersionDAG := NewVersionDAG "1111" 0

/-- The scenario after `Lock("1111")`. -/
def exDAG1 : VersionDAG := (exDAG0.Lock "1111").2

/-- The scenario after a successful `newChild("1111")` minting UUID 2222. -/
def exDAG2 : VersionDAG := (exDAG1.newChild "1111" "2222" 1).2

/-- Claim C1: the spec says a successful `CreateChild(parent)` records
`Parents = [parent]` on the new node.  The code instead executes
`Parents: []UUID{u}` with `u` the freshly minted child UUID, so the child
records itself — not the locked parent — as its sole parent: branching from
the locked root 1111 and minting 2222 succeeds, yet the new node's `Parents`
is `["2222"]`, a self-cycle, and the parent 1111 appears nowhere in it. -/
theorem C1_parents_record_child_itself :
    (exDAG1.newChild "1111" "2222" 1).1 = .ok "2222" ∧
    (alookup exDAG2.Nodes "2222").map (fun nd => nd.version.Parents) = some ["2222"] ∧
    ("2222" : UUID) ≠ "1111" := by
  refine ⟨rfl, by decide, by decide⟩

/-- Claim C2: the spec says a successful `CreateChild` inserts the new UUID
into both `Nodes` and the UUID-to-local-id map `VersionMap`, keeping
`|Nodes| = |VersionMap|`.  The code inserts only into `Nodes`: after one
successful child creation `Nodes` has two entries while `VersionMap` still
has one, and the new UUID is absent from `VersionMap`. -/
theorem C2_versionmap_never_updated :
    (exDAG1.newChild "1111" "2222" 1).1 = .ok "2222" ∧
    exDAG2.Nodes.length = 2 ∧
    exDAG2.VersionMap.length = 1 ∧
    alookup exDAG2.VersionMap "2222" = none := by
  refine ⟨rfl, by decide, by decide, by decide⟩

/-- Claim C3: `newChild` on an unlocked node fails with the NotLocked error and
`newChild` on an unknown UUID fails with the NotFound error, and in all four
failure situations (at the DAG level and at the registry level) the returned
state is exactly the unmodified input state. -/
theorem C3_failed_newChild_mutates_nothing (dag : VersionDAG) (dsets : Dvid.Datasets)
    (parent u : UUID) (t : Nat) :
    (alookup dag.Nodes parent = none →
      dag.newChild parent u t = (.error (.notFound parent), dag)) ∧
    (∀ node, alookup dag.Nodes parent = some node → node.version.Locked = false →
      dag.newChild parent u t = (.error (.notLocked parent), dag)) ∧
    (alookup dsets.versionMap parent = none →
      dsets.newChild parent u t = (.error (.notFound parent), dsets)) ∧
    (∀ idx dset node, alookup dsets.versionMap parent = some idx →
      dsets.Datasets[idx]? = some dset →
      alookup dset.dag.Nodes parent = some node → node.version.Locked = false →
      dsets.newChild parent u t = (.error (.notLocked parent), dsets)) := by
  refine ⟨?_, ?_, ?_, ?_⟩
  · intro h
    simp [VersionDAG.newChild, h]
  · intro node h hb
    simp [VersionDAG.newChild, h, hb]
  · intro h
    simp [Datasets.newChild, h]
  · intro idx dset node hidx hget h hb
    have hdag : dset.dag.newChild parent u t = (.error (.notLocked parent), dset.dag) := by
      simp [VersionDAG.newChild, h, hb]
    have hset : dsets.Datasets.set idx dset = dsets.Datasets := list_set_self _ _ _ hget
    simp [Datasets.newChild, hidx, hget, hdag, hset]

/-- The unlocked root node of `exDAG0`. -/
def exRootNode : Node :=
  { version :=
    { GlobalID := "1111", VersionID := 0, Locked := false
      Parents := [], Children := [], Created := 0, Updated := 0 }
    text := none, Avail := [] }

/-- A Dataset wrapping `exDAG0`. -/
def exDset0 : Dataset := { dag := exDAG0, Alias := "", DatasetID := 0, nameMap := [] }

/-- The empty registry. -/
def exRegistryEmpty : Dvid.Datasets := { Datasets := [], NewDatasetID := 0, versionMap := [] }

/-- A registry holding the single Dataset `exDset0`. -/
def exRegistry1 : Dvid.Datasets :=
  { Datasets := [exDset0], NewDatasetID := 1, versionMap := [("1111", 0)] }

/-- Witness for C3: the four failure situations realized on concrete states: a
child of the unlocked fresh root fails NotLocked, a child of the unknown UUID
9999 fails NotFound, and the registry counterparts behave the same with the
registry unchanged. -/
theorem C3_witness :
    (exDAG0.newChild "1111" "2222" 1 = (.error (.notLocked "1111"), exDAG0)) ∧
    (exDAG0.newChild "9999" "2222" 1 = (.error (.notFound "9999"), exDAG0)) ∧
    (exRegistryEmpty.newChild "9999" "2222" 1 = (.error (.notFound "9999"), exRegistryEmpty)) ∧
    (exRegistry1.newChild "1111" "2222" 1 = (.error (.notLocked "1111"), exRegistry1)) :=
  ⟨(C3_failed_newChild_mutates_nothing exDAG0 exRegistryEmpty "1111" "2222" 1).2.1
      exRootNode (by decide) (by decide),
   (C3_failed_newChild_mutates_nothing exDAG0 exRegistryEmpty "9999" "2222" 1).1 (by decide),
   (C3_failed_newChild_mutates_nothing exDAG0 exRegistryEmpty "9999" "2222" 1).2.2.1 (by decide),
   (C3_failed_newChild_mutates_nothing exDAG0 exRegistry1 "1111" "2222" 1).2.2.2
      0 exDset0 exRootNode (by decide) (by decide) (by decide) (by decide)⟩

/-- Claim C4: `NewVersionDAG` assigns the root local id 0 and sets
`NewVersionID` to 1, and on every DAG reachable by `NewVersionDAG` followed by
any sequence of `Lock` and `newChild` calls the node-map's local version ids,
in creation order, are exactly `0, 1, ..., NewVersionID - 1`: ids are assigned
in creation order, strictly increasing, never reused, and `NewVersionID`
exceeds every assigned id. -/
theorem C4_version_id_allocation :
    (∀ (root : UUID) (t : Nat),
        (NewVersionDAG root t).NewVersionID = 1 ∧
        (alookup (NewVersionDAG root t).Nodes root).map (fun nd => nd.version.VersionID) =
          some 0) ∧
    (∀ dag : VersionDAG, DAGReach dag → nodeIds dag.Nodes = List.range dag.NewVersionID) := by
  refine ⟨fun root t => ⟨rfl, ?_⟩, fun dag h => dagReach_ids h⟩
  simp [NewVersionDAG, ainsert, alookup]

/-- Witness for C4: the reachable DAG with a locked root and one child has ids
exactly `[0, 1]` with `NewVersionID = 2`. -/
theorem C4_witness :
    DAGReach exDAG2 ∧ nodeIds exDAG2.Nodes = List.range exDAG2.NewVersionID :=
  ⟨DAGReach.child exDAG1 "1111" "2222" 1
      (DAGReach.lock exDAG0 "1111" (DAGReach.base "1111" 0)) (by decide),
   C4_version_id_allocation.2 exDAG2
     (DAGReach.child exDAG1 "1111" "2222" 1
       (DAGReach.lock exDAG0 "1111" (DAGReach.base "1111" 0)) (by decide))⟩

/-- A type registry entry whose constructor always succeeds, recording the
`DataID` it was given. -/
def exTypeService : TypeService :=
  { NewDataService := fun dataID _ => some { dataID := dataID, url := "type-url" } }

/-- A type registry that resolves every type name to `exTypeService`. -/
def exTypeByName : String → Option TypeService := fun _ => some exTypeService

/-- A Dataset freshly created by `newDataset` (so `NewDataID = KeyDataStart`). -/
def exDsetN : Dataset := (exRegistryEmpty.newDataset "1111" 0).1

/-- `exDsetN` after a successful `NewData("a", ...)`. -/
def exDsetA : Dataset := (exDsetN.NewData exTypeByName "a" "ty" []).2

/-- `exDsetA` after a successful `NewData("b", ...)`. -/
def exDsetAB : Dataset := (exDsetA.NewData exTypeByName "b" "ty" []).2

/-- Claim C5: the spec says each successful `NewData` allocates a fresh id
from the monotonically increasing `NewDataID` counter, so successive calls get
distinct ids.  The code reads `dset.NewDataID` but never increments it: two
successive successful `NewData` calls both hand the constructor the id
`KeyDataStart`, and the counter is unchanged afterwards. -/
theorem C5_dataid_counter_never_incremented :
    (exDsetN.NewData exTypeByName "a" "ty" []).1 = .ok () ∧
    (exDsetA.NewData exTypeByName "b" "ty" []).1 = .ok () ∧
    (alookup exDsetAB.nameMap "a").map (fun ds => ds.dataID.id) = some KeyDataStart ∧
    (alookup exDsetAB.nameMap "b").map (fun ds => ds.dataID.id) = some KeyDataStart ∧
    exDsetAB.dag.NewDataID = exDsetN.dag.NewDataID := by
  refine ⟨rfl, rfl, by decide, by decide, by decide⟩

/-- Claim C8: `NewData` with a name already present fails with the
AlreadyExists error and returns the Dataset (name map and counters included)
unchanged; consequently a second `NewData` with the same name after a
successful first one always fails, leaving the state of the first call
intact. -/
theorem C8_duplicate_data_name_rejected (dset : Dataset)
    (tsByName tsByName2 : String → Option TypeService) (name : DataString)
    (ty ty2 : String) (cfg cfg2 : Config) :
    (∀ ds0, alookup dset.nameMap name = some ds0 →
      dset.NewData tsByName name ty cfg = (.error (.alreadyExists name), dset)) ∧
    (∀ dset1, dset.NewData tsByName name ty cfg = (.ok (), dset1) →
      dset1.NewData tsByName2 name ty2 cfg2 = (.error (.alreadyExists name), dset1)) := by
  constructor
  · intro ds0 h
    simp [Dataset.NewData, h]
  · intro dset1 h
    cases hl : alookup dset.nameMap name with
    | some ds0 =>
      simp [Dataset.NewData, hl] at h
    | none =>
      cases ht : tsByName ty with
      | none => simp [Dataset.NewData, hl, ht] at h
      | some ts =>
        cases hc : ts.NewDataService
            { name := name, id := dset.dag.NewDataID, dset := dset.DatasetID } cfg with
        | none => simp [Dataset.NewData, hl, ht, hc] at h
        | some ds =>
          simp only [Dataset.NewData, hl, ht, hc, Prod.mk.injEq, true_and] at h
          have hmem : alookup dset1.nameMap name = some ds := by
            rw [← h]
            show alookup (ainsert dset.nameMap name ds) name = some ds
            rw [alookup_ainsert, if_pos rfl]
          simp [Dataset.NewData, hmem]

/-- Witness for C8: on the concrete Dataset that already holds the name a, a
repeated `NewData` fails AlreadyExists without mutation — both when the name
was pre-existing and immediately after the successful call that added it. -/
theorem C8_witness :
    (exDsetA.NewData exTypeByName "a" "ty" [] = (.error (.alreadyExists "a"), exDsetA)) ∧
    (exDsetA.NewData exTypeByName "a" "ty2" [] = (.error (.alreadyExists "a"), exDsetA)) :=
  ⟨(C8_duplicate_data_name_rejected exDsetA exTypeByName exTypeByName "a" "ty" "ty" [] []).1
      { dataID := { name := "a", id := KeyDataStart, dset := 0 }, url := "type-url" }
      (by decide),
   (C8_duplicate_data_name_rejected exDsetN exTypeByName exTypeByName "a" "ty" "ty2" [] []).2
      exDsetA rfl⟩

theorem mem_of_getLast?_eq {α : Type} {l : List α} {a : α} (h : l.getLast? = some a) :
    a ∈ l := by
  obtain ⟨hne, rfl⟩ := List.mem_getLast?_eq_getLast (l := l) (x := a)
    (by rw [h]; exact Option.mem_some_self a)
  exact List.getLast_mem hne

/-- Claim C7: prefix resolution, both by `VersionIdFromString` on a DAG of
`versioning.go` and by `DatasetFromString` on the registry: a unique match is
returned with no error, zero matches yield the NotFound error and two or more
matches yield the Ambiguous error — for every candidate set and prefix. -/
theorem C7_unambiguous_resolution (dagv : Versioning.VersionDAG)
    (dsets : Dvid.Datasets) (str : String) :
    (∀ (k : UUID) (id : Versioning.VersionId), matching dagv.VersionMap str = [(k, id)] →
      dagv.VersionIdFromString str = (id, none)) ∧
    (matching dagv.VersionMap str = [] →
      dagv.VersionIdFromString str = (0, some (.noMatch str))) ∧
    (2 ≤ (matching dagv.VersionMap str).length →
      dagv.VersionIdFromString str = (0, some (.ambiguous str))) ∧
    (∀ (k : UUID) (i : Nat), matching dsets.versionMap str = [(k, i)] →
      dsets.DatasetFromString str = (some i, k, none)) ∧
    (matching dsets.versionMap str = [] →
      dsets.DatasetFromString str = (none, "", some (.noMatch str))) ∧
    (2 ≤ (matching dsets.versionMap str).length →
      (dsets.DatasetFromString str).2.2 = some (.ambiguous str)) := by
  have hv := foldl_count_last (fun p => hasPrefixGo p.1 str) (fun p => p.2)
    dagv.VersionMap 0 (0 : Versioning.VersionId)
  have hd := foldl_count_last (fun p => hasPrefixGo p.1 str)
    (fun p => ((some p.2 : Option Nat), p.1)) dsets.versionMap 0
    ((none : Option Nat), ("" : UUID))
  refine ⟨?_, ?_, ?_, ?_, ?_, ?_⟩
  · intro k id hm
    simp only [matching] at hm
    simp only [Versioning.VersionDAG.VersionIdFromString, hv, hm]
    simp [List.getLast?_singleton]
  · intro hm
    simp only [matching] at hm
    simp only [Versioning.VersionDAG.VersionIdFromString, hv, hm]
    simp
  · intro hm
    simp only [matching] at hm
    simp only [Versioning.VersionDAG.VersionIdFromString, hv]
    have hgt : 0 + (dagv.VersionMap.filter (fun p => hasPrefixGo p.1 str)).length > 1 := by
      omega
    rw [if_pos hgt]
  · intro k i hm
    simp only [matching] at hm
    simp only [Datasets.DatasetFromString, hd, hm]
    simp [List.getLast?_singleton]
  · intro hm
    simp only [matching] at hm
    simp only [Datasets.DatasetFromString, hd, hm]
    simp
  · intro hm
    simp only [matching] at hm
    simp only [Datasets.DatasetFromString, hd]
    have hgt : 0 + (dsets.versionMap.filter (fun p => hasPrefixGo p.1 str)).length > 1 := by
      omega
    rw [if_pos hgt]

/-- Witness for C7: a two-entry index where the prefix 11 matches exactly the
UUID 1111, the prefix 9 matches nothing, and the empty prefix matches both. -/
theorem C7_witness :
    (Versioning.VersionDAG.VersionIdFromString
        { Head := "1111", Nodes := [], VersionMap := [("1111", 0), ("2222", 1)] } "11" =
      (0, none)) ∧
    (Versioning.VersionDAG.VersionIdFromString
        { Head := "1111", Nodes := [], VersionMap := [("1111", 0), ("2222", 1)] } "9" =
      ((0 : Versioning.VersionId), some (.noMatch "9"))) ∧
    (Versioning.VersionDAG.VersionIdFromString
        { Head := "1111", Nodes := [], VersionMap := [("1111", 0), ("2222", 1)] } "" =
      ((0 : Versioning.VersionId), some (.ambiguous ""))) ∧
    (Datasets.DatasetFromString
        { Datasets := [], NewDatasetID := 0, versionMap := [("1111", 3), ("2222", 4)] } "22" =
      (some 4, "2222", none)) :=
  ⟨(C7_unambiguous_resolution
      { Head := "1111", Nodes := [], VersionMap := [("1111", 0), ("2222", 1)] }
      exRegistryEmpty "11").1 "1111" 0 (by decide),
   (C7_unambiguous_resolution
      { Head := "1111", Nodes := [], VersionMap := [("1111", 0), ("2222", 1)] }
      exRegistryEmpty "9").2.1 (by decide),
   (C7_unambiguous_resolution
      { Head := "1111", Nodes := [], VersionMap := [("1111", 0), ("2222", 1)] }
      exRegistryEmpty "").2.2.1 (by decide),
   (C7_unambiguous_resolution
      { Head := "1111", Nodes := [], VersionMap := [] }
      { Datasets := [], NewDatasetID := 0, versionMap := [("1111", 3), ("2222", 4)] }
      "22").2.2.2.1 "2222" 4 (by decide)⟩

/-- Claim C10: when `DatasetFromString` reports the Ambiguous error, its
dataset and UUID return values are not cleared: they still hold the last
matching entry visited, which is in particular one of the matching entries. -/
theorem C10_ambiguous_returns_last_match (dsets : Dvid.Datasets) (str : String)
    (p : UUID × Nat) (h2 : 2 ≤ (matching dsets.versionMap str).length)
    (hlast : (matching dsets.versionMap str).getLast? = some p) :
    dsets.DatasetFromString str = (some p.2, p.1, some (.ambiguous str)) ∧
    p ∈ dsets.versionMap ∧ hasPrefixGo p.1 str = true := by
  have hd := foldl_count_last (fun p => hasPrefixGo p.1 str)
    (fun p => ((some p.2 : Option Nat), p.1)) dsets.versionMap 0
    ((none : Option Nat), ("" : UUID))
  simp only [matching] at h2 hlast
  have hgt : 0 + (dsets.versionMap.filter (fun p => hasPrefixGo p.1 str)).length > 1 := by
    omega
  have hmem := List.mem_filter.mp (mem_of_getLast?_eq hlast)
  refine ⟨?_, hmem.1, hmem.2⟩
  simp only [Datasets.DatasetFromString, hd, hlast]
  rw [if_pos hgt]

/-- Witness for C10: with both entries matching the empty prefix, the call
reports Ambiguous yet still returns the second (last visited) entry. -/
theorem C10_witness :
    Datasets.DatasetFromString
        { Datasets := [], NewDatasetID := 0, versionMap := [("1111", 3), ("2222", 4)] } "" =
      (some 4, "2222", some (.ambiguous "")) ∧
    ("2222", 4) ∈ [(("1111" : UUID), 3), ("2222", 4)] ∧
    hasPrefixGo "2222" "" = true :=
  ⟨(C10_ambiguous_returns_last_match
      { Datasets := [], NewDatasetID := 0, versionMap := [("1111", 3), ("2222", 4)] } ""
      ("2222", 4) (by decide) (by decide)).1,
   (C10_ambiguous_returns_last_match
      { Datasets := [], NewDatasetID := 0, versionMap := [("1111", 3), ("2222", 4)] } ""
      ("2222", 4) (by decide) (by decide)).2⟩

/-- Claim C6: deserializing the output of `Serialize` succeeds and reproduces
an equivalent registry: the same ordered dataset sequence with identical
Version DAG contents (root, node map, UUID-to-id map, counters), aliases and
dataset ids, the same `NewDatasetID`, and a rebuilt `versionMap` that sends
every UUID listed by every Dataset's `Versions()` to its owning Dataset.  The
registry is assumed to hold at least one Dataset with a locked, branched node
(the claim's precondition) and distinct Datasets hold disjoint UUID sets (as
fresh minting guarantees, and as required for the owner to be well defined). -/
theorem C6_serialize_deserialize_roundtrip (dsets : Dvid.Datasets)
    (hbranched : ∃ d ∈ dsets.Datasets, ∃ pr ∈ d.dag.Nodes,
      pr.2.version.Locked = true ∧ pr.2.version.Children ≠ [])
    (hdisj : dsets.Datasets.Pairwise (fun a b => ∀ u, u ∈ a.Versions → u ∉ b.Versions)) :
    ∀ s, dsets.Serialize = .ok s →
      (dsets.Deserialize s).1 = .ok () ∧
      (dsets.Deserialize s).2.Datasets.map (fun d => d.dag) =
        dsets.Datasets.map (fun d => d.dag) ∧
      (dsets.Deserialize s).2.Datasets.map (fun d => d.Alias) =
        dsets.Datasets.map (fun d => d.Alias) ∧
      (dsets.Deserialize s).2.Datasets.map (fun d => d.DatasetID) =
        dsets.Datasets.map (fun d => d.DatasetID) ∧
      (dsets.Deserialize s).2.NewDatasetID = dsets.NewDatasetID ∧
      (∀ (i : Nat) (d : Dataset), (dsets.Deserialize s).2.Datasets[i]? = some d →
        ∀ u ∈ d.Versions, alookup (dsets.Deserialize s).2.versionMap u = some i) := by
  intro s hs
  have hs1 : dvidSerialize dsets = s := by
    have : (Except.ok (dvidSerialize dsets) : Except DvidError Bytes) = .ok s := hs
    injection this
  subst hs1
  have hdisj1 : (dsets.Datasets.map persistDataset).Pairwise
      (fun a b => ∀ u, u ∈ a.Versions → u ∉ b.Versions) :=
    List.Pairwise.map persistDataset (fun a b h => h) hdisj
  refine ⟨rfl, ?_, ?_, ?_, rfl, ?_⟩
  · rw [show (dsets.Deserialize (dvidSerialize dsets)).2.Datasets =
        dsets.Datasets.map persistDataset from rfl, List.map_map]
    rfl
  · rw [show (dsets.Deserialize (dvidSerialize dsets)).2.Datasets =
        dsets.Datasets.map persistDataset from rfl, List.map_map]
    rfl
  · rw [show (dsets.Deserialize (dvidSerialize dsets)).2.Datasets =
        dsets.Datasets.map persistDataset from rfl, List.map_map]
    rfl
  · intro i d hi u hu
    have h := rebuildFrom_owner (dsets.Datasets.map persistDataset) [] 0 hdisj1 i d hi u hu
    simpa using h

/-- The Dataset around the branched DAG `exDAG2`. -/
def exDset2 : Dataset := { dag := exDAG2, Alias := "", DatasetID := 0, nameMap := [] }

/-- A registry holding `exDset2`, with both of its UUIDs indexed. -/
def exRegistry2 : Dvid.Datasets :=
  { Datasets := [exDset2], NewDatasetID := 1, versionMap := [("1111", 0), ("2222", 0)] }

/-- Witness for C6: the registry around the locked, branched concrete DAG
round-trips: deserialization succeeds, reproduces the dataset sequence and
indexes both UUIDs to dataset 0. -/
theorem C6_witness :
    ((∃ d ∈ exRegistry2.Datasets, ∃ pr ∈ d.dag.Nodes,
        pr.2.version.Locked = true ∧ pr.2.version.Children ≠ []) ∧
      exRegistry2.Datasets.Pairwise (fun a b => ∀ u, u ∈ a.Versions → u ∉ b.Versions)) ∧
    (exRegistry2.Deserialize (dvidSerialize exRegistry2)).1 = .ok () ∧
    (exRegistry2.Deserialize (dvidSerialize exRegistry2)).2.Datasets.map (fun d => d.dag) =
      exRegistry2.Datasets.map (fun d => d.dag) ∧
    (exRegistry2.Deserialize (dvidSerialize exRegistry2)).2.Datasets.map (fun d => d.Alias) =
      exRegistry2.Datasets.map (fun d => d.Alias) ∧
    (exRegistry2.Deserialize (dvidSerialize exRegistry2)).2.Datasets.map (fun d => d.DatasetID) =
      exRegistry2.Datasets.map (fun d => d.DatasetID) ∧
    (exRegistry2.Deserialize (dvidSerialize exRegistry2)).2.NewDatasetID =
      exRegistry2.NewDatasetID ∧
    (∀ (i : Nat) (d : Dataset),
      (exRegistry2.Deserialize (dvidSerialize exRegistry2)).2.Datasets[i]? = some d →
      ∀ u ∈ d.Versions,
        alookup (exRegistry2.Deserialize (dvidSerialize exRegistry2)).2.versionMap u = some i) :=
  ⟨⟨by decide, by decide⟩,
   C6_serialize_deserialize_roundtrip exRegistry2 (by decide) (by decide)
     (dvidSerialize exRegistry2) rfl⟩

/-- Counterexample to claim C9 as stated: deserializing corrupt bytes into the
nonempty registry `exRegistry1` returns an error, yet the registry's dataset
sequence is no longer what it was before the call. -/
theorem C9_counterexample :
    (exRegistry1.Deserialize .corrupt).1 = .error .deserializeFailed ∧
    (exRegistry1.Deserialize .corrupt).2.Datasets ≠ exRegistry1.Datasets := by
  exact ⟨rfl, by decide⟩

/-- Claim C9 (amended): when deserialization fails, `versionMap` and
`NewDatasetID` are unchanged and a backend read failure in `Get` leaves the
whole registry untouched — but the `Datasets` sequence has already been reset
to empty by the clearing assignment that precedes the decode, so the registry
is not left unchanged (and `versionMap` is stale relative to the now-empty
sequence). -/
theorem C9_failed_load_state (dsets : Dvid.Datasets) (e : DvidError) :
    dsets.Deserialize .corrupt =
      (.error .deserializeFailed, { dsets with Datasets := ([] : List Dataset) }) ∧
    (dsets.Deserialize .corrupt).2.versionMap = dsets.versionMap ∧
    (dsets.Deserialize .corrupt).2.NewDatasetID = dsets.NewDatasetID ∧
    (dsets.Deserialize .corrupt).2.Datasets = [] ∧
    dsets.Get (.error e) = (.error e, dsets) :=
  ⟨rfl, rfl, rfl, rfl, rfl⟩

end Dvid

